import Mathlib

/-!
# Verification of the blitzar inner-product-argument core

A shallow embedding of the inner-product proof driver
(`sxt/proof/inner_product/gpu_driver.cc`, `scalar_fold_kernel.cc`) and of the
naive sequence-commitment computation
(`sxt/seqcommit/naive/commitment_computation_cpu.cc`), together with theorems
checking the specification's claims against it.

Modelling conventions:

* The Curve25519 scalar field is an external collaborator consumed through
  `mul`, `muladd`, `inv` and `inner_product`; we embed it as an arbitrary
  `Field F` and translate those operations literally.
* Ristretto/curve21 group arithmetic is likewise external; it is embedded as a
  bundle of abstract operations (`GroupOps`) so that the driver code can be
  translated verbatim against them.
* C++ spans mutated in place become functions `List F → List F`; a kernel that
  writes index set `W` is translated to the list whose entry at `i ∈ W` is the
  written value and whose other entries are unchanged.
* `SXT_DEBUG_ASSERT` guards become `Except` error results, with the error kind
  taken from the specification's error taxonomy (the C++ macro aborts without
  distinguishing kinds).
-/

namespace blitzar

/-! ## Scalar-field collaborator (spec §3, §6) -/

namespace s25o

/-- `s25o::mul(r, a, b)` — scalar multiplication collaborator. -/
def mul {F : Type} [Field F] (a b : F) : F := a * b

/-- `s25o::muladd(r, a, b, c) ⇒ r = a·b + c` — scalar fused multiply-add. -/
def muladd {F : Type} [Field F] (a b c : F) : F := a * b + c

/-- `s25o::inv(r, a)` — field inverse collaborator. -/
def inv {F : Type} [Field F] (a : F) : F := a⁻¹

/-- `s25o::async_inner_product(u, v)` — inner product of two scalar spans,
ranging over the common length. -/
def inner_product {F : Type} [Field F] (u v : List F) : F :=
  (List.zipWith (fun a b => a * b) u v).sum

end s25o

/-! ## Group collaborator (spec §3, §6): curve21/ristretto operations consumed
by the driver, bundled abstractly.  `G` is `c21t::element_p3`, `C` is
`rstt::compressed_element`. -/

structure GroupOps (F G C : Type) where
  /-- `c21o::add`. -/
  add : G → G → G
  /-- `c21o::scalar_multiply(P, s, Q) ⇒ P = s·Q`. -/
  scalar_multiply : F → G → G
  /-- `rsto::compress`. -/
  compress : G → C
  /-- decompression, the inverse direction of the 32-byte encoding. -/
  decompress : C → G
  /-- the group identity `0_G`. -/
  zero : G

/-- `mtxc21::async_compute_multiexponentiation(points, scalars)`
computes `Σ scalars_i · points_i` (spec §4.3). -/
def multiexponentiation {F G C : Type} [Field F] (ops : GroupOps F G C)
    (points : List G) (scalars : List F) : G :=
  (List.zipWith (fun s p => ops.scalar_multiply s p) scalars points).foldl ops.add ops.zero

/-! ## Scalar fold kernel — `sxt/proof/inner_product/scalar_fold_kernel.cc` -/

/-- Error kinds of the spec's taxonomy (§7) used by the fold kernels. -/
inductive FoldError where
  | invalidShape
  | wrongMemorySpace
  deriving DecidableEq, Repr

/-- A scalar span together with its residency, as tested by
`basdv::is_device_pointer(scalars.data())`. -/
structure DeviceSpan (F : Type) where
  data : List F
  on_device : Bool
  deriving Repr

/-- `fold_scalars_case1` (scalar_fold_kernel.cc:17-35): for `i ∈ [0, m)` the
kernel performs `x ← m_low·s[i]` then `x ← m_high·s[mid+i] + x`, writing the
result to `s[i]`; all other entries are untouched. -/
def fold_scalars_case1 {F : Type} [Field F] (scalars : List F)
    (m_low m_high : F) (mid m : ℕ) : List F :=
  (List.range scalars.length).map fun i =>
    if i < m then
      s25o.muladd m_high (scalars.getD (mid + i) 0) (s25o.mul m_low (scalars.getD i 0))
    else scalars.getD i 0

/-- `fold_scalars_case2` (scalar_fold_kernel.cc:40-55): the kernel offsets the
data pointer by `m` and performs `x ← m_low·x` for `i ∈ [0, mid − m)`, i.e. it
writes `s[i] ← m_low·s[i]` exactly for `i ∈ [m, mid)`. -/
def fold_scalars_case2 {F : Type} [Field F] (scalars : List F)
    (m_low : F) (mid m : ℕ) : List F :=
  (List.range scalars.length).map fun i =>
    if m ≤ i ∧ i < mid then s25o.mul m_low (scalars.getD i 0)
    else scalars.getD i 0

/-- The combined in-place effect of `fold_scalars` once its guard has passed
(scalar_fold_kernel.cc:71-77): case 1 always runs; case 2 runs exactly when
`m ≠ mid`.  The two cases write disjoint index ranges, and the `s[mid+i]`
reads of case 1 are outside both write sets, so their parallel execution
equals this sequential composition. -/
def fold_scalars_effect {F : Type} [Field F] (scalars : List F)
    (m_low m_high : F) (mid : ℕ) : List F :=
  let m := scalars.length - mid
  let r1 := fold_scalars_case1 scalars m_low m_high mid m
  if m = mid then r1 else fold_scalars_case2 r1 m_low mid m

/-- `fold_scalars` (scalar_fold_kernel.cc:60-78).  The C++ guard is
`SXT_DEBUG_ASSERT(is_device_pointer(data) && 0 < mid && mid < n && n ≤ 2·mid)`;
per the spec's error taxonomy a residency failure is `WrongMemorySpace` and a
shape failure is `InvalidShape`. -/
def fold_scalars {F : Type} [Field F] (scalars : DeviceSpan F)
    (m_low m_high : F) (mid : ℕ) : Except FoldError (List F) :=
  let n := scalars.data.length
  if scalars.on_device = false then .error .wrongMemorySpace
  else if ¬ (0 < mid ∧ mid < n ∧ n ≤ 2 * mid) then .error .invalidShape
  else .ok (fold_scalars_effect scalars.data m_low m_high mid)

/-! ## Generator fold — consumed by the driver.

`decompose_generator_fold` / `fold_generators`
(`generator_fold_kernel`) are sources not included under `src/`. -/

/-- Modelled from the spec: the generator fold operator (§4.2), whose
bit-decomposition device path "must be bit-exact equal" to the naive form
`g'[i] = m_low·g[i] + m_high·g[mid+i]` for `i ∈ [0, n − mid)` and
`g'[i] = m_low·g[i]` on the odd tail; entries at `i ≥ mid` are untouched
(the caller truncates).  The multipliers `(m_low, m_high)` stand for the pair
encoded by `decompose_generator_fold`. -/
def fold_generators {F G C : Type} [Field F] (ops : GroupOps F G C)
    (g : List G) (m_low m_high : F) (mid : ℕ) : List G :=
  (List.range g.length).map fun i =>
    if i < g.length - mid then
      ops.add (ops.scalar_multiply m_low (g.getD i ops.zero))
        (ops.scalar_multiply m_high (g.getD (mid + i) ops.zero))
    else if i < mid then ops.scalar_multiply m_low (g.getD i ops.zero)
    else g.getD i ops.zero

/-! ## Proof descriptor and workspace — `proof_descriptor.h`, `gpu_workspace.h`
as consumed by `gpu_driver.cc`. -/

/-- `prfip::proof_descriptor`: the immutable public inputs (spec §3). -/
structure proof_descriptor (F G : Type) where
  b_vector : List F
  g_vector : List G
  q_value : G

/-- `prfip::gpu_workspace`: the per-proof mutable state (spec §3).  The C++
vectors live in device memory; the residency is a property of the workspace
type itself. -/
structure gpu_workspace (F G : Type) where
  descriptor : proof_descriptor F G
  round_index : ℕ
  a_vector : List F
  b_vector : List F
  g_vector : List G

/-- Error kind for `commit_to_fold`'s degenerate-round guard (spec §7). -/
inductive CommitError where
  | degenerateRound
  deriving DecidableEq, Repr

namespace gpu_driver

/-- `gpu_driver::make_workspace` (gpu_driver.cc:45-77): allocates a workspace
with `round_index = 0` and copies `a_vector`, `descriptor.b_vector` and
`descriptor.g_vector` into it.  The source performs no validation of the
input lengths. -/
def make_workspace {F G : Type} [Field F] (descriptor : proof_descriptor F G)
    (a_vector : List F) : gpu_workspace F G :=
  { descriptor := descriptor
    round_index := 0
    a_vector := a_vector
    b_vector := descriptor.b_vector
    g_vector := descriptor.g_vector }

end gpu_driver

/-- `commit_to_fold_partial` (gpu_driver.cc:28-40): one MSM over
`g_vector.subspan(0, |u|)` with scalars `u`, one inner product `<u, v>` scaled
by `q_value`, summed and compressed. -/
def commit_to_fold_partial {F G C : Type} [Field F] (ops : GroupOps F G C)
    (g_vector : List G) (q_value : G) (u_vector v_vector : List F) : C :=
  let u_commit := multiexponentiation ops (g_vector.take u_vector.length) u_vector
  let product := s25o.inner_product u_vector v_vector
  ops.compress (ops.add u_commit (ops.scalar_multiply product q_value))

namespace gpu_driver

/-- `gpu_driver::commit_to_fold` (gpu_driver.cc:82-101): with
`mid = |g_vector|/2`, guarded by `SXT_DEBUG_ASSERT(mid > 0)` (the spec's
`DegenerateRound`), computes `L` from `(g_high, q, a_low, b_high)` and `R`
from `(g_low, q, a_high, b_low)` via `commit_to_fold_partial`. -/
def commit_to_fold {F G C : Type} [Field F] (ops : GroupOps F G C)
    (work : gpu_workspace F G) : Except CommitError (C × C) :=
  let mid := work.g_vector.length / 2
  if mid = 0 then .error .degenerateRound
  else
    let a_low := work.a_vector.take mid
    let a_high := work.a_vector.drop mid
    let b_low := work.b_vector.take mid
    let b_high := work.b_vector.drop mid
    let g_low := work.g_vector.take mid
    let g_high := work.g_vector.drop mid
    .ok ( commit_to_fold_partial ops g_high work.descriptor.q_value a_low b_high,
         commit_to_fold_partial ops g_low work.descriptor.q_value a_high b_low)

/-- `gpu_driver::fold` (gpu_driver.cc:106-138): computes `mid = |g_vector|/2`,
increments `round_index`, computes `x_inv = x⁻¹`, folds `a_vector` with
multipliers `(x, x_inv)` and shrinks it to `mid`; when `mid == 1` it returns
there, leaving `b_vector` and `g_vector` untouched; otherwise it also folds
`b_vector` with `(x_inv, x)` and `g_vector` with the decomposition of
`(x_inv, x)`, shrinking each to `mid`.  The in-place kernels plus
`shrink(mid)` are translated as the effect functions followed by `take mid`. -/
def fold {F G C : Type} [Field F] (ops : GroupOps F G C)
    (work : gpu_workspace F G) (x : F) : gpu_workspace F G :=
  let mid := work.g_vector.length / 2
  let x_inv := s25o.inv x
  let a_vector := (fold_scalars_effect work.a_vector x x_inv mid).take mid
  if mid = 1 then
    { work with round_index := work.round_index + 1, a_vector := a_vector }
  else
    { descriptor := work.descriptor
      round_index := work.round_index + 1
      a_vector := a_vector
      b_vector := (fold_scalars_effect work.b_vector x_inv x mid).take mid
      g_vector := (fold_generators ops work.g_vector x_inv x mid).take mid }

end gpu_driver

/-- Iterated rounds: one `gpu_driver::fold` per challenge, in order. -/
def fold_rounds {F G C : Type} [Field F] (ops : GroupOps F G C)
    (work : gpu_workspace F G) (xs : List F) : gpu_workspace F G :=
  xs.foldl (gpu_driver.fold ops) work

namespace cpu_driver

/-- Modelled from the spec: `cpu_driver::compute_expected_commitment`
(`cpu_driver.cc` is not among the provided sources; spec §4.4.4).  Computes
`s_i = Π_{j : bit_j(i)=1} x_j · Π_{j : bit_j(i)=0} x_j⁻¹` with bit 0 least
significant, and
`expected = <a'·s, g> + (a'·<s, b>)·q + Σ_j (x_j²·L_j + x_j⁻²·R_j)`,
compressed. -/
def compute_expected_commitment {F G C : Type} [Field F] (ops : GroupOps F G C)
    (descriptor : proof_descriptor F G) (l_vector r_vector : List C)
    (x_vector : List F) (ap_value : F) : C :=
  let n := descriptor.g_vector.length
  let s : List F := (List.range n).map fun i =>
    (List.range x_vector.length).foldl
      (fun acc j =>
        acc * (if Nat.testBit i j then x_vector.getD j 0 else (x_vector.getD j 0)⁻¹))
      1
  let t1 := multiexponentiation ops descriptor.g_vector (s.map fun si => ap_value * si)
  let t2 := ops.scalar_multiply (ap_value * s25o.inner_product s descriptor.b_vector)
    descriptor.q_value
  let t3 := (List.zipWith
      (fun (xj : F) (p : C × C) =>
        ops.add (ops.scalar_multiply (xj * xj) (ops.decompress p.1))
          (ops.scalar_multiply (xj⁻¹ * xj⁻¹) (ops.decompress p.2)))
      x_vector (l_vector.zip r_vector)).foldl ops.add ops.zero
  ops.compress (ops.add (ops.add t1 t2) t3)

end cpu_driver

namespace gpu_driver

/-- `gpu_driver::compute_expected_commitment` (gpu_driver.cc:143-152):
constructs a `cpu_driver` and forwards all arguments to its
`compute_expected_commitment` ("TODO(rnburn): replace with GPU version"). -/
def compute_expected_commitment {F G C : Type} [Field F] (ops : GroupOps F G C)
    (descriptor : proof_descriptor F G) (l_vector r_vector : List C)
    (x_vector : List F) (ap_value : F) : C :=
  cpu_driver.compute_expected_commitment ops descriptor l_vector r_vector x_vector ap_value

end gpu_driver

/-! ## Naive sequence commitments —
`sxt/seqcommit/naive/commitment_computation_cpu.cc` -/

/-- `mtxb::exponent_sequence`: `element_nbytes` bytes per element, `n`
elements, and the backing byte buffer (little-endian per element).  Bytes are
modelled as naturals. -/
structure exponent_sequence where
  element_nbytes : ℕ
  n : ℕ
  data : List ℕ

/-- Modelled from the spec: `sqcnv::fill_data` (`fill_data.h` is not among the
provided sources; per the call-site comment it inserts the element's
`element_nbytes` data bytes at the beginning of the 32-byte scalar and pads
zeros at the end). -/
def fill_data (bytes : List ℕ) (element_nbytes : ℕ) : List ℕ :=
  bytes.take element_nbytes ++ List.replicate (32 - element_nbytes) 0

/-- The external collaborators of `compute_commitments_cpu`: `G` is
`c21t::element_p3`, `C` is the 32-byte `sqcb::commitment` encoding. -/
structure CommitOps (G C : Type) where
  /-- `sqcb::compute_base_element(g_i, row_i)` — the prespecified base
  element for an index. -/
  compute_base_element : ℕ → G
  /-- `c21o::scalar_multiply(h, a, g)` with a 32-byte little-endian scalar. -/
  scalar_multiply : List ℕ → G → G
  /-- `c21o::add`. -/
  add : G → G → G
  /-- `c21rs::to_bytes` — the canonical byte encoding of a group element. -/
  to_bytes : G → C
  /-- the value of the uninitialized `element_p3 p_k` that the source would
  encode if a sequence had zero elements. -/
  uninit : G

/-- `sqcnv::compute_commitments_cpu` (commitment_computation_cpu.cc:19-54):
for each column, iterates the rows, building the padded scalar `a_i` from the
bytes at offset `row_i · element_nbytes`, multiplying by the base element
`g_i`, initializing the accumulator at row 0 and adding on later rows, and
finally writes the byte encoding.  The `assert` on equal span sizes is
implicit here: the output list always has the input's length. -/
def compute_commitments_cpu {G C : Type} (ops : CommitOps G C)
    (value_sequences : List exponent_sequence) : List C :=
  value_sequences.map fun column_k_data =>
    let p_k := (List.range column_k_data.n).foldl
      (fun p_k row_i =>
        let g_i := ops.compute_base_element row_i
        let a_i := fill_data (column_k_data.data.drop (row_i * column_k_data.element_nbytes))
          column_k_data.element_nbytes
        let h_i := ops.scalar_multiply a_i g_i
        if row_i = 0 then h_i else ops.add p_k h_i)
      ops.uninit
    ops.to_bytes p_k

/-- The claim's per-row term: the element's `element_nbytes` bytes, zero-padded
at the end to 32 bytes, times the prespecified base element for the row. -/
def pedersen_term {G C : Type} (ops : CommitOps G C)
    (column : exponent_sequence) (i : ℕ) : G :=
  ops.scalar_multiply
    ((column.data.drop (i * column.element_nbytes)).take column.element_nbytes
      ++ List.replicate (32 - column.element_nbytes) 0)
    (ops.compute_base_element i)

/-- The claim's sum `Σ_{i ∈ [0, n)} a_i·g_i` for a nonempty column, summed in
index order starting from the row-0 term. -/
def pedersen_sum {G C : Type} (ops : CommitOps G C)
    (column : exponent_sequence) : G :=
  ((List.range (column.n - 1)).map fun j => pedersen_term ops column (j + 1)).foldl
    ops.add (pedersen_term ops column 0)

/-! ## Concrete instances used to witness the theorems -/

instance fact_prime_11 : Fact (Nat.Prime 11) := ⟨by norm_num⟩

/-- A concrete group-operation bundle over `ℤ` (the group law is addition,
scalar multiplication acts through `ZMod.val`, compression is the identity),
used to instantiate the abstract collaborators in witnesses. -/
def ops0 : GroupOps (ZMod 11) ℤ ℤ where
  add := fun a b => a + b
  scalar_multiply := fun s g => (s.val : ℤ) * g
  compress := fun g => g
  decompress := fun c => c
  zero := 0

/-- A concrete descriptor with `n = 2`: `b = [3, 4]`, `g = [10, 20]`, `q = 7`. -/
def descriptor0 : proof_descriptor (ZMod 11) ℤ where
  b_vector := [3, 4]
  g_vector := [10, 20]
  q_value := 7

/-- The workspace for `descriptor0` with prover input `a = [1, 2]`. -/
def workspace0 : gpu_workspace (ZMod 11) ℤ :=
  gpu_driver.make_workspace descriptor0 [1, 2]

/-- A degenerate workspace whose `g_vector` has length 1. -/
def workspace1 : gpu_workspace (ZMod 11) ℤ where
  descriptor := descriptor0
  round_index := 0
  a_vector := [1]
  b_vector := [3]
  g_vector := [10]

/-- A concrete `n = 4` workspace: `a = [1, 2, 3, 4]`, `b = [5, 6, 7, 8]`,
`g = [10, 20, 30, 40]`. -/
def workspace2 : gpu_workspace (ZMod 11) ℤ where
  descriptor := descriptor0
  round_index := 0
  a_vector := [1, 2, 3, 4]
  b_vector := [5, 6, 7, 8]
  g_vector := [10, 20, 30, 40]

/-- A concrete commitment-operation bundle over `ℤ`: the base element for row
`i` is `i + 1`, and a 32-byte scalar acts through its little-endian value. -/
def cops0 : CommitOps ℤ ℤ where
  compute_base_element := fun i => (i : ℤ) + 1
  scalar_multiply := fun bytes g =>
    ((bytes.reverse.foldl (fun acc b => 256 * acc + b) 0 : ℕ) : ℤ) * g
  add := fun a b => a + b
  to_bytes := fun g => g
  uninit := 12345

/-- A concrete device span for the fold-scalar witnesses. -/
def span0 : DeviceSpan (ZMod 11) where
  data := [1, 2, 3]
  on_device := true

/-- The same data marked as host-resident. -/
def span1 : DeviceSpan (ZMod 11) where
  data := [1, 2, 3]
  on_device := false

/-- A concrete dense sequence: one byte per element, two elements `[3, 4]`. -/
def seq0 : exponent_sequence where
  element_nbytes := 1
  n := 2
  data := [3, 4]

/-! ## Helper lemmas on the list encodings -/

theorem getD_range_map {α : Type} (f : ℕ → α) (n i : ℕ) (d : α) :
    ((List.range n).map f).getD i d = if i < n then f i else d := by
  by_cases h : i < n
  · rw [List.getD_eq_getElem _ _ (by simpa using h)]
    simp [h]
  · rw [List.getD_eq_default _ _ (by simpa using Nat.le_of_not_lt h)]
    simp [h]

theorem take_eq_range_map {α : Type} (l : List α) (k : ℕ) (d : α) (h : k ≤ l.length) :
    l.take k = (List.range k).map fun i => l.getD i d := by
  apply List.ext_getElem
  · simp; omega
  · intro i h1 h2
    have h1' : i < l.length := by simp at h1; omega
    rw [List.getElem_take, List.getElem_map, List.getElem_range,
      List.getD_eq_getElem _ _ h1']

theorem drop_eq_range_map {α : Type} (l : List α) (k : ℕ) (d : α) :
    l.drop k = (List.range (l.length - k)).map fun i => l.getD (k + i) d := by
  apply List.ext_getElem
  · simp
  · intro i h1 h2
    have h1' : k + i < l.length := by simp at h1; omega
    rw [List.getElem_drop, List.getElem_map, List.getElem_range,
      List.getD_eq_getElem _ _ h1']

theorem getD_take {α : Type} (l : List α) (k i : ℕ) (d : α) (h : i < k) :
    (l.take k).getD i d = l.getD i d := by
  by_cases hi : i < l.length
  · rw [List.getD_eq_getElem _ _ (by simp; omega), List.getD_eq_getElem _ _ hi]
    simp [List.getElem_take]
  · rw [List.getD_eq_default _ _ (by simp; omega), List.getD_eq_default _ _ (by omega)]

theorem fold_scalars_case1_length {F : Type} [Field F] (scalars : List F)
    (m_low m_high : F) (mid m : ℕ) :
    (fold_scalars_case1 scalars m_low m_high mid m).length = scalars.length := by
  simp [fold_scalars_case1]

theorem fold_scalars_case2_length {F : Type} [Field F] (scalars : List F)
    (m_low : F) (mid m : ℕ) :
    (fold_scalars_case2 scalars m_low mid m).length = scalars.length := by
  simp [fold_scalars_case2]

theorem fold_scalars_effect_length {F : Type} [Field F] (scalars : List F)
    (m_low m_high : F) (mid : ℕ) :
    (fold_scalars_effect scalars m_low m_high mid).length = scalars.length := by
  simp only [fold_scalars_effect]
  split
  · rw [fold_scalars_case1_length]
  · rw [fold_scalars_case2_length, fold_scalars_case1_length]

theorem fold_generators_length {F G C : Type} [Field F] (ops : GroupOps F G C)
    (g : List G) (m_low m_high : F) (mid : ℕ) :
    (fold_generators ops g m_low m_high mid).length = g.length := by
  simp [fold_generators]

theorem fold_scalars_case1_getD {F : Type} [Field F] (scalars : List F)
    (m_low m_high : F) (mid m i : ℕ) :
    (fold_scalars_case1 scalars m_low m_high mid m).getD i 0 =
      if i < scalars.length then
        (if i < m then
          s25o.muladd m_high (scalars.getD (mid + i) 0) (s25o.mul m_low (scalars.getD i 0))
         else scalars.getD i 0)
      else 0 := by
  unfold fold_scalars_case1
  exact getD_range_map _ _ _ _

theorem fold_scalars_case2_getD {F : Type} [Field F] (scalars : List F)
    (m_low : F) (mid m i : ℕ) :
    (fold_scalars_case2 scalars m_low mid m).getD i 0 =
      if i < scalars.length then
        (if m ≤ i ∧ i < mid then s25o.mul m_low (scalars.getD i 0) else scalars.getD i 0)
      else 0 := by
  unfold fold_scalars_case2
  exact getD_range_map _ _ _ _

theorem fold_generators_getD {F G C : Type} [Field F] (ops : GroupOps F G C)
    (g : List G) (m_low m_high : F) (mid i : ℕ) :
    (fold_generators ops g m_low m_high mid).getD i ops.zero =
      if i < g.length then
        (if i < g.length - mid then
          ops.add (ops.scalar_multiply m_low (g.getD i ops.zero))
            (ops.scalar_multiply m_high (g.getD (mid + i) ops.zero))
         else if i < mid then ops.scalar_multiply m_low (g.getD i ops.zero)
         else g.getD i ops.zero)
      else ops.zero := by
  unfold fold_generators
  exact getD_range_map _ _ _ _

theorem fold_scalars_effect_getD_lo {F : Type} [Field F] (s : List F)
    (m_low m_high : F) (mid i : ℕ) (h3 : s.length ≤ 2 * mid)
    (hi : i < s.length - mid) :
    (fold_scalars_effect s m_low m_high mid).getD i 0 =
      s25o.muladd m_high (s.getD (mid + i) 0) (s25o.mul m_low (s.getD i 0)) := by
  have hilen : i < s.length := by omega
  simp only [fold_scalars_effect]
  split
  · rw [fold_scalars_case1_getD, if_pos hilen, if_pos hi]
  · rw [fold_scalars_case2_getD, fold_scalars_case1_length, if_pos hilen,
      if_neg (by omega), fold_scalars_case1_getD, if_pos hilen, if_pos hi]

theorem fold_scalars_effect_getD_mid {F : Type} [Field F] (s : List F)
    (m_low m_high : F) (mid i : ℕ) (h2 : mid < s.length)
    (hi1 : s.length - mid ≤ i) (hi2 : i < mid) :
    (fold_scalars_effect s m_low m_high mid).getD i 0 =
      s25o.mul m_low (s.getD i 0) := by
  have hilen : i < s.length := by omega
  simp only [fold_scalars_effect]
  split
  · omega
  · rw [fold_scalars_case2_getD, fold_scalars_case1_length, if_pos hilen,
      if_pos ⟨hi1, hi2⟩, fold_scalars_case1_getD, if_pos hilen, if_neg (by omega)]

theorem fold_scalars_effect_getD_hi {F : Type} [Field F] (s : List F)
    (m_low m_high : F) (mid i : ℕ) (h3 : s.length ≤ 2 * mid)
    (hi : mid ≤ i) :
    (fold_scalars_effect s m_low m_high mid).getD i 0 = s.getD i 0 := by
  by_cases hilen : i < s.length
  · simp only [fold_scalars_effect]
    split
    · rw [fold_scalars_case1_getD, if_pos hilen, if_neg (by omega)]
    · rw [fold_scalars_case2_getD, fold_scalars_case1_length, if_pos hilen,
        if_neg (by omega), fold_scalars_case1_getD, if_pos hilen, if_neg (by omega)]
  · rw [List.getD_eq_default _ _ (by rw [fold_scalars_effect_length]; omega),
      List.getD_eq_default _ _ (by omega)]

/-! ## Claim theorems: the scalar fold kernel -/

/-- C3: for a device span of length `n` with `0 < mid < n ≤ 2·mid` and
`m = n − mid`, `fold_scalars` succeeds and produces
`s[i] = m_low·s_old[i] + m_high·s_old[mid + i]` for `i ∈ [0, m)` and
`s[i] = m_low·s_old[i]` for `i ∈ [m, mid)`. -/
theorem C3_fold_scalars_pointwise {F : Type} [Field F] (scalars : DeviceSpan F)
    (m_low m_high : F) (mid : ℕ) (hdev : scalars.on_device = true)
    (h1 : 0 < mid) (h2 : mid < scalars.data.length)
    (h3 : scalars.data.length ≤ 2 * mid) :
    ∃ r, fold_scalars scalars m_low m_high mid = Except.ok r ∧
      r.length = scalars.data.length ∧
      (∀ i, i < scalars.data.length - mid →
        r.getD i 0 = m_low * scalars.data.getD i 0
          + m_high * scalars.data.getD (mid + i) 0) ∧
      (∀ i, scalars.data.length - mid ≤ i → i < mid →
        r.getD i 0 = m_low * scalars.data.getD i 0) := by
  refine ⟨fold_scalars_effect scalars.data m_low m_high mid, ?_, ?_, ?_, ?_⟩
  · simp only [fold_scalars, hdev]
    have hok : 0 < mid ∧ mid < scalars.data.length ∧ scalars.data.length ≤ 2 * mid :=
      ⟨h1, h2, h3⟩
    simp [hok]
  · exact fold_scalars_effect_length _ _ _ _
  · intro i hi
    rw [fold_scalars_effect_getD_lo _ _ _ _ _ h3 hi]
    simp only [s25o.muladd, s25o.mul]
    ring
  · intro i hi1 hi2
    rw [fold_scalars_effect_getD_mid _ _ _ _ _ h2 hi1 hi2]
    simp [s25o.mul]

/-- Witness for C3 at the concrete device span `[1, 2, 3]` over `ZMod 11`,
with `mid = 2`, `m_low = 2`, `m_high = 3`. -/
theorem C3_witness :
    ∃ r, fold_scalars span0 (2 : ZMod 11) 3 2 = Except.ok r ∧
      r.length = 3 ∧ r.getD 0 0 = 2 * 1 + 3 * 3 ∧ r.getD 1 0 = 2 * 2 := by
  obtain ⟨r, hr, hlen, hlo, hmid⟩ :=
    C3_fold_scalars_pointwise span0 2 3 2 rfl (by decide) (by decide) (by decide)
  exact ⟨r, hr, hlen, hlo 0 (by decide), hmid 1 (by decide) (by decide)⟩

/-- C7: `fold_scalars` fails with `WrongMemorySpace` when the span is not
device-resident, fails with `InvalidShape` when `mid = 0`, `mid ≥ n`, or
`n > 2·mid`, and under the precondition `0 < mid < n ≤ 2·mid` with correct
residency it succeeds. -/
theorem C7_fold_scalars_errors {F : Type} [Field F] (scalars : DeviceSpan F)
    (m_low m_high : F) (mid : ℕ) :
    (scalars.on_device = false →
      fold_scalars scalars m_low m_high mid = Except.error FoldError.wrongMemorySpace) ∧
    (scalars.on_device = true →
      (mid = 0 ∨ scalars.data.length ≤ mid ∨ 2 * mid < scalars.data.length) →
      fold_scalars scalars m_low m_high mid = Except.error FoldError.invalidShape) ∧
    (scalars.on_device = true → 0 < mid → mid < scalars.data.length →
      scalars.data.length ≤ 2 * mid →
      fold_scalars scalars m_low m_high mid =
        Except.ok (fold_scalars_effect scalars.data m_low m_high mid)) := by
  refine ⟨?_, ?_, ?_⟩
  · intro h
    simp [fold_scalars, h]
  · intro h hshape
    have hbad : ¬ (0 < mid ∧ mid < scalars.data.length ∧ scalars.data.length ≤ 2 * mid) := by
      omega
    simp [fold_scalars, h, hbad]
  · intro h h1 h2 h3
    have hok : 0 < mid ∧ mid < scalars.data.length ∧ scalars.data.length ≤ 2 * mid :=
      ⟨h1, h2, h3⟩
    simp [fold_scalars, h, hok]

/-- Witness for C7: a host span is rejected with `WrongMemorySpace`, a bad
midpoint is rejected with `InvalidShape`, and the valid concrete span
succeeds. -/
theorem C7_witness :
    fold_scalars span1 (2 : ZMod 11) 3 2 = Except.error FoldError.wrongMemorySpace ∧
    fold_scalars span0 (2 : ZMod 11) 3 5 = Except.error FoldError.invalidShape ∧
    fold_scalars span0 (2 : ZMod 11) 3 2 =
      Except.ok (fold_scalars_effect span0.data 2 3 2) :=
  ⟨(C7_fold_scalars_errors span1 2 3 2).1 rfl,
   (C7_fold_scalars_errors span0 2 3 5).2.1 rfl (by decide),
   (C7_fold_scalars_errors span0 2 3 2).2.2 rfl (by decide) (by decide) (by decide)⟩

/-- C9: under `0 < mid < n ≤ 2·mid` the write ranges `[0, m)` of case 1 and
`[m, mid)` of case 2 are disjoint, the indices `mid + i` that case 1 reads
after writing lie in neither write set, the two cases commute (so their
parallel execution is sound), and no entry at index `≥ mid` is ever written:
the suffix `s[mid..n)` is unchanged and the length is preserved. -/
theorem C9_fold_scalars_frame {F : Type} [Field F] (s : List F)
    (m_low m_high : F) (mid : ℕ)
    (h1 : 0 < mid) (h2 : mid < s.length) (h3 : s.length ≤ 2 * mid) :
    (∀ i, i < s.length - mid → ¬(s.length - mid ≤ i ∧ i < mid)) ∧
    (∀ i, i < s.length - mid → ¬(mid + i < mid)) ∧
    (fold_scalars_case2 (fold_scalars_case1 s m_low m_high mid (s.length - mid))
        m_low mid (s.length - mid)
      = fold_scalars_case1 (fold_scalars_case2 s m_low mid (s.length - mid))
        m_low m_high mid (s.length - mid)) ∧
    (∀ i, mid ≤ i → (fold_scalars_effect s m_low m_high mid).getD i 0 = s.getD i 0) ∧
    (fold_scalars_effect s m_low m_high mid).length = s.length := by
  refine ⟨fun i hi => by omega, fun i hi => by omega, ?_,
    fun i hi => fold_scalars_effect_getD_hi _ _ _ _ _ h3 hi,
    fold_scalars_effect_length _ _ _ _⟩
  apply List.ext_getElem
  · rw [fold_scalars_case2_length, fold_scalars_case1_length,
      fold_scalars_case1_length, fold_scalars_case2_length]
  · intro i hL hR
    have hn : i < s.length := by
      rw [fold_scalars_case2_length, fold_scalars_case1_length] at hL
      exact hL
    have eL : _ = _ := List.getD_eq_getElem
      (fold_scalars_case2 (fold_scalars_case1 s m_low m_high mid (s.length - mid))
        m_low mid (s.length - mid)) (0 : F) hL
    have eR : _ = _ := List.getD_eq_getElem
      (fold_scalars_case1 (fold_scalars_case2 s m_low mid (s.length - mid))
        m_low m_high mid (s.length - mid)) (0 : F) hR
    rw [← eL, ← eR]
    by_cases hc1 : i < s.length - mid
    · rw [fold_scalars_case2_getD, fold_scalars_case1_length, if_pos hn,
        if_neg (by omega), fold_scalars_case1_getD, if_pos hn, if_pos hc1,
        fold_scalars_case1_getD, fold_scalars_case2_length, if_pos hn, if_pos hc1,
        fold_scalars_case2_getD, if_pos (by omega), if_neg (by omega),
        fold_scalars_case2_getD, if_pos hn, if_neg (by omega)]
    · by_cases hc2 : i < mid
      · rw [fold_scalars_case2_getD, fold_scalars_case1_length, if_pos hn,
          if_pos (by omega), fold_scalars_case1_getD, if_pos hn, if_neg (by omega),
          fold_scalars_case1_getD, fold_scalars_case2_length, if_pos hn,
          if_neg (by omega), fold_scalars_case2_getD, if_pos hn, if_pos (by omega)]
      · rw [fold_scalars_case2_getD, fold_scalars_case1_length, if_pos hn,
          if_neg (by omega), fold_scalars_case1_getD, if_pos hn, if_neg (by omega),
          fold_scalars_case1_getD, fold_scalars_case2_length, if_pos hn,
          if_neg (by omega), fold_scalars_case2_getD, if_pos hn, if_neg (by omega)]

/-- Witness for C9 at the concrete span `[1, 2, 3]` over `ZMod 11` with
`mid = 2` (so `m = 1`): the two cases commute, the suffix entry at index 2 is
unchanged, and the length is preserved. -/
theorem C9_witness :
    fold_scalars_case2 (fold_scalars_case1 [(1 : ZMod 11), 2, 3] 2 3 2 1) 2 2 1
      = fold_scalars_case1 (fold_scalars_case2 [(1 : ZMod 11), 2, 3] 2 2 1) 2 3 2 1 ∧
    (fold_scalars_effect [(1 : ZMod 11), 2, 3] 2 3 2).getD 2 0
      = ([(1 : ZMod 11), 2, 3]).getD 2 0 ∧
    (fold_scalars_effect [(1 : ZMod 11), 2, 3] 2 3 2).length = 3 := by
  obtain ⟨d1, d2, hcomm, hhi, hlen⟩ :=
    C9_fold_scalars_frame [(1 : ZMod 11), 2, 3] 2 3 2 (by decide) (by decide) (by decide)
  exact ⟨hcomm, hhi 2 (by decide), hlen⟩

/-! ## Claim theorems: `commit_to_fold` -/

/-- C1: in a committed-ready round with `mid = |g_vector|/2 ≥ 1` (all three
vectors of length `2·mid`), `commit_to_fold` writes into the `L` slot the
compressed `<a_low, g_high> + <a_low, b_high>·q` and into the `R` slot the
compressed `<a_high, g_low> + <a_high, b_low>·q`, where `low` is `[0..mid)`
and `high` is `[mid..2·mid)`, each as one MSM over the group half plus the
scalar inner product scaled by `q`. -/
theorem C1_commit_to_fold {F G C : Type} [Field F] (ops : GroupOps F G C)
    (work : gpu_workspace F G) (mid : ℕ)
    (hg : work.g_vector.length = 2 * mid)
    (ha : work.a_vector.length = 2 * mid)
    (hb : work.b_vector.length = 2 * mid)
    (hmid : 1 ≤ mid) :
    gpu_driver.commit_to_fold ops work = Except.ok
      (ops.compress (ops.add
        (multiexponentiation ops
          ((List.range mid).map fun i => work.g_vector.getD (mid + i) ops.zero)
          ((List.range mid).map fun i => work.a_vector.getD i 0))
        (ops.scalar_multiply
          (s25o.inner_product
            ((List.range mid).map fun i => work.a_vector.getD i 0)
            ((List.range mid).map fun i => work.b_vector.getD (mid + i) 0))
          work.descriptor.q_value)),
       ops.compress (ops.add
        (multiexponentiation ops
          ((List.range mid).map fun i => work.g_vector.getD i ops.zero)
          ((List.range mid).map fun i => work.a_vector.getD (mid + i) 0))
        (ops.scalar_multiply
          (s25o.inner_product
            ((List.range mid).map fun i => work.a_vector.getD (mid + i) 0)
            ((List.range mid).map fun i => work.b_vector.getD i 0))
          work.descriptor.q_value))) := by
  have hdiv : work.g_vector.length / 2 = mid := by rw [hg]; omega
  simp only [gpu_driver.commit_to_fold, hdiv]
  rw [if_neg (by omega)]
  rw [take_eq_range_map work.a_vector mid (0 : F) (by omega),
    take_eq_range_map work.b_vector mid (0 : F) (by omega),
    take_eq_range_map work.g_vector mid ops.zero (by omega),
    drop_eq_range_map work.a_vector mid (0 : F),
    drop_eq_range_map work.b_vector mid (0 : F),
    drop_eq_range_map work.g_vector mid ops.zero,
    ha, hb, hg]
  have h2m : 2 * mid - mid = mid := by omega
  rw [h2m]
  simp only [ commit_to_fold_partial, List.length_map, List.length_range]
  rw [List.take_of_length_le (by simp), List.take_of_length_le (by simp)]

/-- Witness for C1 at `workspace0` (`a = [1,2]`, `b = [3,4]`, `g = [10,20]`,
`q = 7` over the concrete integer group): `L = 1·20 + 4·7 = 48` and
`R = 2·10 + 6·7 = 62`. -/
theorem C1_witness :
    gpu_driver.commit_to_fold ops0 workspace0 = Except.ok ((48 : ℤ), (62 : ℤ)) := by
  have h := C1_commit_to_fold ops0 workspace0 1 rfl rfl rfl (by decide)
  rw [h]
  rfl

/-- C8: on a workspace whose `g_vector` has length 1 (so `mid = 0`),
`commit_to_fold` fails with `DegenerateRound` and produces no `(L, R)` pair. -/
theorem C8_commit_to_fold_degenerate {F G C : Type} [Field F] (ops : GroupOps F G C)
    (work : gpu_workspace F G) (h : work.g_vector.length = 1) :
    gpu_driver.commit_to_fold ops work = Except.error CommitError.degenerateRound := by
  simp [gpu_driver.commit_to_fold, h]

/-- Witness for C8 at the concrete length-1 workspace. -/
theorem C8_witness :
    gpu_driver.commit_to_fold ops0 workspace1 = Except.error CommitError.degenerateRound :=
  C8_commit_to_fold_degenerate ops0 workspace1 rfl

/-! ## Claim theorems: `fold` -/

theorem fold_unfold {F G C : Type} [Field F] (ops : GroupOps F G C)
    (work : gpu_workspace F G) (x : F) (mid : ℕ)
    (hdiv : work.g_vector.length / 2 = mid) :
    gpu_driver.fold ops work x =
      if mid = 1 then
        { work with
          round_index := work.round_index + 1
          a_vector := (fold_scalars_effect work.a_vector x (s25o.inv x) mid).take mid }
      else
        { descriptor := work.descriptor
          round_index := work.round_index + 1
          a_vector := (fold_scalars_effect work.a_vector x (s25o.inv x) mid).take mid
          b_vector := (fold_scalars_effect work.b_vector (s25o.inv x) x mid).take mid
          g_vector := (fold_generators ops work.g_vector (s25o.inv x) x mid).take mid } := by
  simp only [gpu_driver.fold, hdiv]

theorem fold_lengths {F G C : Type} [Field F] (ops : GroupOps F G C)
    (work : gpu_workspace F G) (x : F) (mid : ℕ)
    (hg : work.g_vector.length = 2 * mid)
    (ha : work.a_vector.length = 2 * mid)
    (hb : work.b_vector.length = 2 * mid)
    (hmid : 1 ≤ mid) :
    (gpu_driver.fold ops work x).a_vector.length = mid ∧
    (mid = 1 → (gpu_driver.fold ops work x).b_vector = work.b_vector ∧
      (gpu_driver.fold ops work x).g_vector = work.g_vector) ∧
    (1 < mid → (gpu_driver.fold ops work x).b_vector.length = mid ∧
      (gpu_driver.fold ops work x).g_vector.length = mid) ∧
    (gpu_driver.fold ops work x).round_index = work.round_index + 1 := by
  have hdiv : work.g_vector.length / 2 = mid := by omega
  rw [fold_unfold ops work x mid hdiv]
  by_cases hm : mid = 1
  · rw [if_pos hm]
    refine ⟨?_, fun _ => ⟨rfl, rfl⟩, fun h => absurd hm (by omega), rfl⟩
    rw [List.length_take, fold_scalars_effect_length]
    omega
  · rw [if_neg hm]
    refine ⟨?_, fun h => absurd h hm, fun _ => ⟨?_, ?_⟩, rfl⟩
    · rw [List.length_take, fold_scalars_effect_length]
      omega
    · rw [List.length_take, fold_scalars_effect_length]
      omega
    · rw [List.length_take, fold_generators_length]
      omega

/-- C2: for a workspace with all vectors of length `2·mid` (`mid ≥ 1`) and a
nonzero challenge `x`, `fold` increments `round_index` by exactly 1, folds
`a_vector` entrywise to `x·a[i] + x⁻¹·a[mid+i]`, and: when `mid = 1` it
leaves `b_vector` and `g_vector` untouched, while when `mid > 1` it also
folds `b_vector` to `x⁻¹·b[i] + x·b[mid+i]` and `g_vector` to
`x⁻¹·g[i] + x·g[mid+i]`. -/
theorem C2_fold {F G C : Type} [Field F] (ops : GroupOps F G C)
    (work : gpu_workspace F G) (x : F) (mid : ℕ)
    (hx : x ≠ 0)
    (hg : work.g_vector.length = 2 * mid)
    (ha : work.a_vector.length = 2 * mid)
    (hb : work.b_vector.length = 2 * mid)
    (hmid : 1 ≤ mid) :
    (gpu_driver.fold ops work x).round_index = work.round_index + 1 ∧
    (gpu_driver.fold ops work x).a_vector.length = mid ∧
    (∀ i, i < mid → (gpu_driver.fold ops work x).a_vector.getD i 0
      = x * work.a_vector.getD i 0 + x⁻¹ * work.a_vector.getD (mid + i) 0) ∧
    (mid = 1 → (gpu_driver.fold ops work x).b_vector = work.b_vector ∧
      (gpu_driver.fold ops work x).g_vector = work.g_vector) ∧
    (1 < mid →
      (gpu_driver.fold ops work x).b_vector.length = mid ∧
      (gpu_driver.fold ops work x).g_vector.length = mid ∧
      (∀ i, i < mid → (gpu_driver.fold ops work x).b_vector.getD i 0
        = x⁻¹ * work.b_vector.getD i 0 + x * work.b_vector.getD (mid + i) 0) ∧
      (∀ i, i < mid → (gpu_driver.fold ops work x).g_vector.getD i ops.zero
        = ops.add (ops.scalar_multiply x⁻¹ (work.g_vector.getD i ops.zero))
            (ops.scalar_multiply x (work.g_vector.getD (mid + i) ops.zero)))) := by
  have hdiv : work.g_vector.length / 2 = mid := by omega
  rw [fold_unfold ops work x mid hdiv]
  by_cases hm : mid = 1
  · rw [if_pos hm]
    refine ⟨rfl, ?_, ?_, fun _ => ⟨rfl, rfl⟩, fun h => absurd hm (by omega)⟩
    · rw [List.length_take, fold_scalars_effect_length]
      omega
    · intro i hi
      rw [getD_take _ _ _ _ hi,
        fold_scalars_effect_getD_lo work.a_vector x (s25o.inv x) mid i (by omega) (by omega)]
      simp only [s25o.muladd, s25o.mul, s25o.inv]
      ring
  · rw [if_neg hm]
    refine ⟨rfl, ?_, ?_, fun h => absurd h hm, fun _ => ⟨?_, ?_, ?_, ?_⟩⟩
    · rw [List.length_take, fold_scalars_effect_length]
      omega
    · intro i hi
      rw [getD_take _ _ _ _ hi,
        fold_scalars_effect_getD_lo work.a_vector x (s25o.inv x) mid i (by omega) (by omega)]
      simp only [s25o.muladd, s25o.mul, s25o.inv]
      ring
    · rw [List.length_take, fold_scalars_effect_length]
      omega
    · rw [List.length_take, fold_generators_length]
      omega
    · intro i hi
      rw [getD_take _ _ _ _ hi,
        fold_scalars_effect_getD_lo work.b_vector (s25o.inv x) x mid i (by omega) (by omega)]
      simp only [s25o.muladd, s25o.mul, s25o.inv]
      ring
    · intro i hi
      rw [getD_take _ _ _ _ hi, fold_generators_getD,
        if_pos (show i < work.g_vector.length by omega),
        if_pos (show i < work.g_vector.length - mid by omega)]
      simp only [s25o.inv]

/-- Witness for C2 at `workspace0` (`n = 2`, so `mid = 1`) with challenge
`x = 5` over `ZMod 11`: the round index becomes 1, the folded
`a' = 5·1 + 5⁻¹·2`, and `b_vector`, `g_vector` are untouched. -/
theorem C2_witness :
    (gpu_driver.fold ops0 workspace0 5).round_index = 1 ∧
    (gpu_driver.fold ops0 workspace0 5).a_vector.length = 1 ∧
    (gpu_driver.fold ops0 workspace0 5).a_vector.getD 0 0
      = 5 * 1 + (5 : ZMod 11)⁻¹ * 2 ∧
    (gpu_driver.fold ops0 workspace0 5).b_vector = workspace0.b_vector ∧
    (gpu_driver.fold ops0 workspace0 5).g_vector = workspace0.g_vector := by
  obtain ⟨h1, h2, h3, h4, h5⟩ :=
    C2_fold ops0 workspace0 5 1 (by decide) rfl rfl rfl (by decide)
  exact ⟨h1, h2, h3 0 (by decide), (h4 rfl).1, (h4 rfl).2⟩

/-- Counterexample for C4: one fold on the `n = 2` workspace (a completed
final round, `r = 1`) leaves `b_vector` at length 2, not `n / 2^r = 1`. -/
theorem C4_counterexample :
    (fold_rounds ops0 workspace0 [5]).b_vector.length ≠ 2 / 2 ^ 1 := by
  decide

/-- C4 as amended: starting from `|a| = |b| = |g| = 2^k` (`k ≥ 1`), after `r`
folds with `r < k` all three vectors have length `n / 2^r`; in the final
round (`r = k`, where `mid = 1`) only `a_vector` is truncated to 1, while
`b_vector` and `g_vector` keep length 2. -/
theorem C4_amended {F G C : Type} [Field F] (ops : GroupOps F G C)
    (work : gpu_workspace F G) (k : ℕ) (xs : List F)
    (ha : work.a_vector.length = 2 ^ k)
    (hb : work.b_vector.length = 2 ^ k)
    (hg : work.g_vector.length = 2 ^ k)
    (hk : 1 ≤ k) (hr : xs.length ≤ k) :
    (xs.length < k →
      (fold_rounds ops work xs).a_vector.length = 2 ^ k / 2 ^ xs.length ∧
      (fold_rounds ops work xs).b_vector.length = 2 ^ k / 2 ^ xs.length ∧
      (fold_rounds ops work xs).g_vector.length = 2 ^ k / 2 ^ xs.length) ∧
    (xs.length = k →
      (fold_rounds ops work xs).a_vector.length = 1 ∧
      (fold_rounds ops work xs).b_vector.length = 2 ∧
      (fold_rounds ops work xs).g_vector.length = 2) := by
  induction xs generalizing work k with
  | nil =>
    refine ⟨fun h => ?_, fun h => ?_⟩
    · simp [fold_rounds, ha, hb, hg]
    · simp at h
      omega
  | cons y ys ih =>
    have hmid1 : (1 : ℕ) ≤ 2 ^ (k - 1) := Nat.one_le_two_pow
    have hpow : 2 * 2 ^ (k - 1) = 2 ^ k := by
      rw [← pow_succ']
      congr 1
      omega
    obtain ⟨hwa, hmid_eq, hmid_gt, hround⟩ := fold_lengths ops work y (2 ^ (k - 1))
      (by rw [hpow]; exact hg) (by rw [hpow]; exact ha) (by rw [hpow]; exact hb) hmid1
    have hstep : fold_rounds ops work (y :: ys) = fold_rounds ops (gpu_driver.fold ops work y) ys :=
      rfl
    by_cases hk1 : k = 1
    · subst hk1
      have hys : ys = [] := by
        have h0 : ys.length = 0 := by
          simp only [List.length_cons] at hr
          omega
        exact List.length_eq_zero.mp h0
      subst hys
      obtain ⟨hbeq, hgeq⟩ := hmid_eq (by norm_num)
      refine ⟨fun h => absurd h (by simp), fun _ => ?_⟩
      rw [hstep]
      refine ⟨by simpa using hwa, ?_, ?_⟩
      · show (gpu_driver.fold ops work y).b_vector.length = 2
        rw [hbeq, hb]
        norm_num
      · show (gpu_driver.fold ops work y).g_vector.length = 2
        rw [hgeq, hg]
        norm_num
    · have hgt : 1 < 2 ^ (k - 1) := Nat.one_lt_two_pow_iff.mpr (by omega)
      obtain ⟨hwb, hwg⟩ := hmid_gt hgt
      obtain ⟨ih1, ih2⟩ := ih (gpu_driver.fold ops work y) (k - 1) hwa hwb hwg
        (by omega) (by simp at hr ⊢; omega)
      have harith : ∀ r : ℕ, r ≤ k - 1 → 2 ^ k / 2 ^ (r + 1) = 2 ^ (k - 1) / 2 ^ r := by
        intro r hrk
        rw [Nat.pow_div (by omega) (by norm_num), Nat.pow_div (by omega) (by norm_num)]
        congr 1
        omega
      refine ⟨fun h => ?_, fun h => ?_⟩
      · simp only [List.length_cons] at h ⊢
        have h' : ys.length < k - 1 := by omega
        obtain ⟨e1, e2, e3⟩ := ih1 h'
        rw [hstep, harith ys.length (by omega)]
        exact ⟨e1, e2, e3⟩
      · simp only [List.length_cons] at h ⊢
        obtain ⟨e1, e2, e3⟩ := ih2 (by omega)
        rw [hstep]
        exact ⟨e1, e2, e3⟩

/-- Witness for C4's amended statement: from the `n = 4` workspace, one fold
(`r = 1 < k = 2`) leaves all three vectors at length 2, and two folds
(`r = k = 2`) leave `a` at length 1 but `b` and `g` at length 2. -/
theorem C4_witness :
    ((fold_rounds ops0 workspace2 [2]).a_vector.length = 2 ^ 2 / 2 ^ 1 ∧
      (fold_rounds ops0 workspace2 [2]).b_vector.length = 2 ^ 2 / 2 ^ 1 ∧
      (fold_rounds ops0 workspace2 [2]).g_vector.length = 2 ^ 2 / 2 ^ 1) ∧
    ((fold_rounds ops0 workspace2 [2, 3]).a_vector.length = 1 ∧
      (fold_rounds ops0 workspace2 [2, 3]).b_vector.length = 2 ∧
      (fold_rounds ops0 workspace2 [2, 3]).g_vector.length = 2) :=
  ⟨(C4_amended ops0 workspace2 2 [2] rfl rfl rfl (by decide) (by decide)).1 (by decide),
   (C4_amended ops0 workspace2 2 [2, 3] rfl rfl rfl (by decide) (by decide)).2 (by decide)⟩

/-! ## Claim theorems: `make_workspace` and `compute_expected_commitment` -/

/-- Counterexample for C5: `make_workspace` applied to a length-1 `a_vector`
and a descriptor whose `b_vector` has length 2 does not fail — it constructs
a workspace carrying the mismatched lengths. -/
theorem C5_counterexample :
    (gpu_driver.make_workspace descriptor0 [(1 : ZMod 11)]).a_vector.length = 1 ∧
    (gpu_driver.make_workspace descriptor0 [(1 : ZMod 11)]).b_vector.length = 2 :=
  ⟨rfl, rfl⟩

/-- C5 as amended: `make_workspace` performs no length validation; for every
descriptor and every `a_vector` (matching or not) it constructs the workspace
with `round_index = 0` and copies of `a_vector`, `descriptor.b_vector` and
`descriptor.g_vector`. -/
theorem C5_amended {F G : Type} [Field F] (descriptor : proof_descriptor F G)
    (a_vector : List F) :
    gpu_driver.make_workspace descriptor a_vector =
      { descriptor := descriptor, round_index := 0, a_vector := a_vector,
        b_vector := descriptor.b_vector, g_vector := descriptor.g_vector } :=
  rfl

/-- C6: the device driver's `compute_expected_commitment` produces exactly
the same compressed commitment as the host driver's on every input — the
source delegates verbatim. -/
theorem C6_compute_expected_commitment_delegates {F G C : Type} [Field F]
    (ops : GroupOps F G C) (descriptor : proof_descriptor F G)
    (l_vector r_vector : List C) (x_vector : List F) (ap_value : F) :
    gpu_driver.compute_expected_commitment ops descriptor l_vector r_vector x_vector ap_value
      = cpu_driver.compute_expected_commitment ops descriptor l_vector r_vector x_vector
          ap_value :=
  rfl

/-! ## Claim theorems: `compute_commitments_cpu` -/

theorem foldl_ext_mem {α β : Type} (f g : β → α → β) (l : List α) (b : β)
    (h : ∀ b a, a ∈ l → f b a = g b a) : l.foldl f b = l.foldl g b := by
  induction l generalizing b with
  | nil => rfl
  | cons y ys ih =>
    simp only [List.foldl_cons, h b y (by simp)]
    exact ih _ fun b a ha => h b a (by simp [ha])

theorem foldl_commit_sum {G C : Type} (ops : CommitOps G C) (t : ℕ → G) (m : ℕ) :
    (List.range (m + 1)).foldl (fun p i => if i = 0 then t i else ops.add p (t i)) ops.uninit
      = ((List.range m).map fun j => t (j + 1)).foldl ops.add (t 0) := by
  rw [List.range_succ_eq_map]
  simp only [List.foldl_cons, List.foldl_map]
  rw [if_pos trivial]
  apply foldl_ext_mem
  intro b a ha
  rw [if_neg (Nat.succ_ne_zero a)]

/-- C10: for equally sized commitment and sequence spans and a sequence at
index `k` with `n ≥ 1` elements of `1 ≤ element_nbytes ≤ 32` bytes each,
`compute_commitments_cpu` writes into slot `k` the byte encoding of
`Σ_{i ∈ [0, n)} a_i·g_i`, where `a_i` is the element's `element_nbytes`
bytes zero-padded at the end to 32 bytes and `g_i` the prespecified base
element for row `i`. -/
theorem C10_compute_commitments_cpu {G C : Type} (ops : CommitOps G C)
    (value_sequences : List exponent_sequence) (k : ℕ)
    (hk : k < value_sequences.length)
    (hn : 1 ≤ value_sequences[k].n)
    (hlo : 1 ≤ value_sequences[k].element_nbytes)
    (hhi : value_sequences[k].element_nbytes ≤ 32) :
    (compute_commitments_cpu ops value_sequences).length = value_sequences.length ∧
    (compute_commitments_cpu ops value_sequences).getD k (ops.to_bytes ops.uninit)
      = ops.to_bytes (pedersen_sum ops value_sequences[k]) := by
  constructor
  · simp [compute_commitments_cpu]
  · have hk' : k < (compute_commitments_cpu ops value_sequences).length := by
      simpa [compute_commitments_cpu] using hk
    rw [List.getD_eq_getElem _ _ hk']
    simp only [compute_commitments_cpu, List.getElem_map]
    congr 1
    have hm : value_sequences[k].n = (value_sequences[k].n - 1) + 1 := by omega
    rw [hm]
    calc (List.range ((value_sequences[k].n - 1) + 1)).foldl
          (fun p i => if i = 0 then pedersen_term ops value_sequences[k] i
            else ops.add p (pedersen_term ops value_sequences[k] i)) ops.uninit
        = ((List.range (value_sequences[k].n - 1)).map
            fun j => pedersen_term ops value_sequences[k] (j + 1)).foldl ops.add
            (pedersen_term ops value_sequences[k] 0) :=
          foldl_commit_sum ops (pedersen_term ops value_sequences[k])
            (value_sequences[k].n - 1)
      _ = pedersen_sum ops value_sequences[k] := by rw [pedersen_sum]

/-- Witness for C10 at the single concrete sequence `seq0` (two one-byte
elements `[3, 4]`) and the concrete integer collaborators. -/
theorem C10_witness :
    (compute_commitments_cpu cops0 [seq0]).length = 1 ∧
    (compute_commitments_cpu cops0 [seq0]).getD 0 (cops0.to_bytes cops0.uninit)
      = cops0.to_bytes (pedersen_sum cops0 seq0) := by
  have h := C10_compute_commitments_cpu cops0 [seq0] 0 (by decide) (by decide)
    (by decide) (by decide)
  exact h

end blitzar
